import Mathlib

/-!
Shallow embedding of the Timeout Reconciliation Engine of the
`serverless-api-gateway-integration-timeout` plugin
(`src/updateAPIGatewayIntegrationTimeout.js`, with the locator cascade
of the extended variant).

The engine resolves an effective integration timeout from layered
configuration, locates the target API gateway through a fallback
cascade, enumerates method integrations under it, patches each one,
classifies the remote "quota exceeded" rejection, and triggers a
redeploy when at least one patch was applied.

Numbers are modelled as `Int` (JS numbers used here are integral
configuration values); fallible steps return `Except`/`Option`;
the remote AWS API is an explicit environment record, and functions
that issue remote calls also return the list of calls they made.
-/

namespace APIGatewayTimeout

/-- Configuration inputs read by `updateIntegrationTimeout`, as found in
`serverless.yml` (`custom.*` and `provider.timeout`).  A `none` field is
an absent (JS `undefined`) setting. -/
structure TimeoutConfig where
  apiGatewayIntegrationTimeout : Option Int
  providerTimeout : Option Int
  apiGatewayMaxTimeout : Option Int
  apiGatewayId : Option String
  deriving Repr, DecidableEq

/-- The requested timeout in milliseconds, by first-defined-wins precedence
(source lines 26–38): `custom.apiGatewayIntegrationTimeout` if defined,
else `provider.timeout * 1000`, else the default `29000`. -/
def requestedTimeout (c : TimeoutConfig) : Int :=
  match c.apiGatewayIntegrationTimeout with
  | some t => t
  | none =>
    match c.providerTimeout with
    | some s => s * 1000
    | none => 29000

/-- The maximum bound (source line 41):
`service.custom?.apiGatewayMaxTimeout || 29000`.  The `||` falls back on
any falsy value, so a configured `0` also yields `29000`. -/
def maxTimeout (c : TimeoutConfig) : Int :=
  match c.apiGatewayMaxTimeout with
  | some m => if m = 0 then 29000 else m
  | none => 29000

/-- The resolved timeout (source lines 44–57): start from the requested
value, raise to `50` when below, then lower to `maxTimeout` when above. -/
def resolveTimeout (c : TimeoutConfig) : Int :=
  let t := requestedTimeout c
  let t' := if t < 50 then 50 else t
  if t' > maxTimeout c then maxTimeout c else t'

/-- Observability flag of the resolver (source line 60): the resolved value
exceeds the standard 29000 ms limit. -/
def aboveStandardLimit (c : TimeoutConfig) : Bool :=
  resolveTimeout c > 29000

theorem resolveTimeout_eq_clamp (c : TimeoutConfig) :
    resolveTimeout c = min (max 50 (requestedTimeout c)) (maxTimeout c) := by
  unfold resolveTimeout
  rcases le_or_lt 50 (requestedTimeout c) with h | h
  · simp only [not_lt.2 h, if_false]
    rcases le_or_lt (requestedTimeout c) (maxTimeout c) with h2 | h2
    · simp [not_lt.2 h2, max_eq_right h, min_eq_left h2]
    · simp [h2, max_eq_right h, min_eq_right h2.le]
  · simp only [h, if_true]
    rcases le_or_lt (50 : Int) (maxTimeout c) with h2 | h2
    · simp [not_lt.2 h2, max_eq_left h.le, min_eq_left h2]
    · simp [h2, max_eq_left h.le, min_eq_right h2.le]

/-- C1: with the maximum bound at least 50, the resolver returns
`max 50 (min r m)` for the requested value `r` resolved by precedence and
bound `m`, and the result lies in `[50, m]`. -/
theorem resolve_clamps_into_range (c : TimeoutConfig)
    (hm : 50 ≤ maxTimeout c) :
    resolveTimeout c = max 50 (min (requestedTimeout c) (maxTimeout c)) ∧
    50 ≤ resolveTimeout c ∧ resolveTimeout c ≤ maxTimeout c := by
  have hc := resolveTimeout_eq_clamp c
  constructor
  · rw [hc]
    rcases le_or_lt 50 (requestedTimeout c) with h | h
    · rw [max_eq_right h, min_comm]
      rcases le_or_lt (requestedTimeout c) (maxTimeout c) with h2 | h2
      · rw [min_eq_right h2, max_eq_right h]
      · rw [min_eq_left h2.le, max_eq_right hm]
    · rw [max_eq_left h.le, min_eq_left hm,
        min_eq_left (h.le.trans hm), max_eq_left h.le]
  · constructor
    · rw [hc]
      exact le_min (le_max_left _ _) hm
    · rw [hc]
      exact min_le_right _ _

/-- C1 witness: a concrete configuration with bound 60000 and request
90000 resolves to 60000, within `[50, 60000]`. -/
theorem resolve_clamps_into_range_witness :
    resolveTimeout ⟨some 90000, none, some 60000, none⟩ =
      max 50 (min (requestedTimeout ⟨some 90000, none, some 60000, none⟩)
        (maxTimeout ⟨some 90000, none, some 60000, none⟩)) ∧
    50 ≤ resolveTimeout ⟨some 90000, none, some 60000, none⟩ ∧
    resolveTimeout ⟨some 90000, none, some 60000, none⟩ ≤
      maxTimeout ⟨some 90000, none, some 60000, none⟩ :=
  resolve_clamps_into_range ⟨some 90000, none, some 60000, none⟩ (by decide)

/-- C2: the requested value is chosen by first-defined-wins precedence:
the explicit millis field, else provider seconds × 1000, else 29000; in
particular 15000 beats a provider timeout of 60 s. -/
theorem requested_precedence :
    (∀ (c : TimeoutConfig) (r : Int),
      c.apiGatewayIntegrationTimeout = some r → requestedTimeout c = r) ∧
    (∀ (c : TimeoutConfig) (s : Int),
      c.apiGatewayIntegrationTimeout = none → c.providerTimeout = some s →
      requestedTimeout c = s * 1000) ∧
    (∀ c : TimeoutConfig,
      c.apiGatewayIntegrationTimeout = none → c.providerTimeout = none →
      requestedTimeout c = 29000) ∧
    (∀ c : TimeoutConfig,
      c.apiGatewayIntegrationTimeout = some 15000 →
      c.providerTimeout = some 60 → requestedTimeout c = 15000) := by
  refine ⟨?_, ?_, ?_, ?_⟩
  · intro c r h
    simp [requestedTimeout, h]
  · intro c s h1 h2
    simp [requestedTimeout, h1, h2]
  · intro c h1 h2
    simp [requestedTimeout, h1, h2]
  · intro c h1 h2
    simp [requestedTimeout, h1]

/-- C2 witness: with both `apiGatewayIntegrationTimeout = 15000` and
`provider.timeout = 60` set, the resolver uses 15000. -/
theorem requested_precedence_witness :
    requestedTimeout ⟨some 15000, some 60, none, none⟩ = 15000 :=
  requested_precedence.2.2.2 ⟨some 15000, some 60, none, none⟩ rfl rfl

/-- C3 counterexample: with a configured maximum bound of 40 ms and a
request of 60 ms, the resolver returns 40, which is below the claimed
unconditional floor of 50. -/
theorem resolve_below_floor_counterexample :
    maxTimeout ⟨some 60, none, some 40, none⟩ = 40 ∧
    resolveTimeout ⟨some 60, none, some 40, none⟩ = 40 ∧
    ¬ (50 ≤ resolveTimeout ⟨some 60, none, some 40, none⟩) := by
  refine ⟨rfl, rfl, by decide⟩

/-- C3 amended: the resolver is total (never raises), the result never
exceeds the effective maximum, and the floor `50 ≤ millis` holds whenever
the effective maximum is at least 50. -/
theorem resolve_invariant_amended (c : TimeoutConfig) :
    resolveTimeout c ≤ maxTimeout c ∧
    (50 ≤ maxTimeout c → 50 ≤ resolveTimeout c) := by
  have hc := resolveTimeout_eq_clamp c
  constructor
  · rw [hc]; exact min_le_right _ _
  · intro hm
    rw [hc]
    exact le_min (le_max_left _ _) hm

/-- C3 amended witness: at the default configuration the resolved value
is within bounds. -/
theorem resolve_invariant_amended_witness :
    resolveTimeout ⟨none, none, none, none⟩ ≤ maxTimeout ⟨none, none, none, none⟩ ∧
    50 ≤ resolveTimeout ⟨none, none, none, none⟩ :=
  ⟨(resolve_invariant_amended ⟨none, none, none, none⟩).1,
   (resolve_invariant_amended ⟨none, none, none, none⟩).2 (by decide)⟩

/-- C10: the maximum bound falls back to 29000 on any falsy configured
value, including an explicit `0`; a request of 20000 with `maxMillis = 0`
resolves to 20000. -/
theorem maxTimeout_falsy_fallback :
    (∀ c : TimeoutConfig, c.apiGatewayMaxTimeout = some 0 →
      maxTimeout c = 29000) ∧
    (∀ c : TimeoutConfig, c.apiGatewayIntegrationTimeout = some 20000 →
      c.apiGatewayMaxTimeout = some 0 → resolveTimeout c = 20000) := by
  constructor
  · intro c h
    simp [maxTimeout, h]
  · intro c h1 h2
    simp [resolveTimeout, requestedTimeout, maxTimeout, h1, h2]

/-- C10 witness: the concrete configuration with `maxMillis = 0` and a
request of 20000 resolves to 20000 under an effective maximum of 29000. -/
theorem maxTimeout_falsy_fallback_witness :
    maxTimeout ⟨some 20000, none, some 0, none⟩ = 29000 ∧
    resolveTimeout ⟨some 20000, none, some 0, none⟩ = 20000 :=
  ⟨maxTimeout_falsy_fallback.1 ⟨some 20000, none, some 0, none⟩ rfl,
   maxTimeout_falsy_fallback.2 ⟨some 20000, none, some 0, none⟩ rfl rfl⟩

/-! ## Gateway location -/

/-- Decidable substring containment on character lists, the model of JS
`String.prototype.includes`. -/
def hasSubstr (pat : List Char) : List Char → Bool
  | [] => pat.isEmpty
  | c :: cs => pat.isPrefixOf (c :: cs) || hasSubstr pat cs

/-- The remote AWS calls the engine can issue. -/
inductive RemoteCall where
  | describeStacks
  | getRestApis
  | getResources
  | getMethod
  | updateIntegration
  | createDeployment
  deriving Repr, DecidableEq

/-- One CloudFormation stack output `(OutputKey, OutputValue)`. -/
structure StackOutput where
  outputKey : String
  outputValue : String
  deriving Repr, DecidableEq

/-- One REST API as returned by `getRestApis`. -/
structure RestApi where
  id : String
  name : String
  deriving Repr, DecidableEq

/-- The remote state the locator reads: the stack outputs (`none` when
`describeStacks` throws or the stack reports no outputs) and the account's
gateway list. -/
structure AwsEnv where
  stackOutputs : Option (List StackOutput)
  restApis : List RestApi
  deriving Repr, DecidableEq

/-- Which discovery strategy produced the gateway id. -/
inductive GatewaySource where
  | Explicit
  | StackOutput
  | ExactNameMatch
  | PartialNameMatch
  | SoleGateway
  deriving Repr, DecidableEq

/-- A located gateway: its id and the strategy that found it. -/
structure GatewayRef where
  id : String
  source : GatewaySource
  deriving Repr, DecidableEq

/-- Predicate of the stack-output search (source line 88 / extended
variant line 121): the output key contains `"RestApiId"` or
`"ApiGatewayRestApi"`. -/
def isRestApiOutput (o : StackOutput) : Bool :=
  hasSubstr ("RestApiId".data) o.outputKey.data ||
    hasSubstr ("ApiGatewayRestApi".data) o.outputKey.data

/-- The discovery cascade run when no usable explicit id is configured
(extended variant lines 102–186; the base file implements the same first
three steps and fails where the extended variant tries partial and
sole-gateway matches).  Also returns the remote calls made. -/
def locateCascade (env : AwsEnv) (serviceName stage : String) :
    Except String GatewayRef × List RemoteCall :=
  let fromStack :=
    match env.stackOutputs with
    | none => none
    | some outs =>
      match outs.find? isRestApiOutput with
      | some o => some o.outputValue
      | none => none
  match fromStack with
  | some v => (.ok ⟨v, .StackOutput⟩, [.describeStacks])
  | none =>
    let calls := [RemoteCall.describeStacks, RemoteCall.getRestApis]
    if env.restApis.length = 0 then
      (.error ("Could not find REST API ID: No REST APIs found in the account"),
        calls)
    else
      let apiName := serviceName ++ "-" ++ stage
      match env.restApis.find? (fun a => a.name = apiName) with
      | some a => (.ok ⟨a.id, .ExactNameMatch⟩, calls)
      | none =>
        match env.restApis.filter
            (fun a => hasSubstr serviceName.data a.name.data &&
              hasSubstr stage.data a.name.data) with
        | a :: _ => (.ok ⟨a.id, .PartialNameMatch⟩, calls)
        | [] =>
          match env.restApis with
          | [a] => (.ok ⟨a.id, .SoleGateway⟩, calls)
          | _ =>
            (.error ("Could not find REST API ID: Could not find API with name: "
              ++ apiName), calls)

/-- The locator (source lines 66–128 / extended variant lines 99–189):
a truthy `custom.apiGatewayId` is used directly with no remote call
(`let restApiId = customApiId; if (!restApiId) ...`); otherwise the
cascade runs. -/
def locate (explicitId : Option String) (env : AwsEnv)
    (serviceName stage : String) :
    Except String GatewayRef × List RemoteCall :=
  match explicitId with
  | some s =>
    if s = "" then locateCascade env serviceName stage
    else (.ok ⟨s, .Explicit⟩, [])
  | none => locateCascade env serviceName stage

/-- C4: with no explicit id, no matching stack output, no exact or
partial name match, and exactly one gateway in the account, the locator
returns that gateway tagged `SoleGateway` rather than failing. -/
theorem locate_sole_gateway (env : AwsEnv) (serviceName stage : String)
    (a : RestApi)
    (hstack : ∀ outs, env.stackOutputs = some outs →
      outs.find? isRestApiOutput = none)
    (hsole : env.restApis = [a])
    (hexact : a.name ≠ serviceName ++ "-" ++ stage)
    (htokens : (hasSubstr serviceName.data a.name.data &&
      hasSubstr stage.data a.name.data) = false) :
    (locate none env serviceName stage).1 =
      .ok ⟨a.id, .SoleGateway⟩ := by
  have hfromStack :
      (match env.stackOutputs with
        | none => none
        | some outs =>
          match outs.find? isRestApiOutput with
          | some o => some o.outputValue
          | none => none) = (none : Option String) := by
    cases h : env.stackOutputs with
    | none => rfl
    | some outs => simp [hstack outs h]
  simp only [locate, locateCascade, hfromStack, hsole]
  simp [List.find?, List.filter, hexact, htokens]

/-- C4 witness: a one-gateway account whose stack has an unrelated output
and whose gateway name matches neither exactly nor partially. -/
theorem locate_sole_gateway_witness :
    (locate none
      ⟨some [⟨"BucketName", "b-123"⟩], [⟨"g1", "orders-api"⟩]⟩
      "svc" "prod").1 = .ok ⟨"g1", .SoleGateway⟩ :=
  locate_sole_gateway
    ⟨some [⟨"BucketName", "b-123"⟩], [⟨"g1", "orders-api"⟩]⟩
    "svc" "prod" ⟨"g1", "orders-api"⟩
    (by intro outs h; cases h; decide)
    rfl (by decide) (by decide)

/-- C9: a truthy explicit gateway id is returned tagged `Explicit` with
an empty remote-call trace; in particular neither `describeStacks` nor
`getRestApis` is invoked. -/
theorem locate_explicit_no_calls (s : String) (env : AwsEnv)
    (serviceName stage : String) (hs : s ≠ "") :
    locate (some s) env serviceName stage = (.ok ⟨s, .Explicit⟩, []) ∧
    RemoteCall.describeStacks ∉ (locate (some s) env serviceName stage).2 ∧
    RemoteCall.getRestApis ∉ (locate (some s) env serviceName stage).2 := by
  have h : locate (some s) env serviceName stage = (.ok ⟨s, .Explicit⟩, []) := by
    simp [locate, hs]
  exact ⟨h, by rw [h]; simp, by rw [h]; simp⟩

/-- C9 witness: a concrete explicit id in a populated environment makes
no remote calls. -/
theorem locate_explicit_no_calls_witness :
    locate (some ("abc123")) ⟨some [⟨"k", "v"⟩], [⟨"g1", "n1"⟩]⟩ "svc" "dev" =
      (.ok ⟨"abc123", .Explicit⟩, []) ∧
    RemoteCall.describeStacks ∉
      (locate (some ("abc123")) ⟨some [⟨"k", "v"⟩], [⟨"g1", "n1"⟩]⟩ "svc" "dev").2 ∧
    RemoteCall.getRestApis ∉
      (locate (some ("abc123")) ⟨some [⟨"k", "v"⟩], [⟨"g1", "n1"⟩]⟩ "svc" "dev").2 :=
  locate_explicit_no_calls ("abc123") ⟨some [⟨"k", "v"⟩], [⟨"g1", "n1"⟩]⟩
    "svc" "dev" (by decide)

/-! ## Integration enumeration -/

/-- One node of the gateway resource tree as returned by `getResources`.
`resourceMethods` is `none` when the JS field is absent. -/
structure ResourceNode where
  id : String
  path : String
  resourceMethods : Option (List String)
  deriving Repr, DecidableEq

/-- One (resource, method) integration candidate; `hasIntegration` records
whether `getMethod` reported a `methodIntegration`. -/
structure IntegrationRef where
  resourceId : String
  httpMethod : String
  hasIntegration : Bool
  deriving Repr, DecidableEq

/-- The method count a resource declares: the number of keys of
`resourceMethods`, zero when the field is absent. -/
def methodCount (r : ResourceNode) : Nat :=
  match r.resourceMethods with
  | none => 0
  | some ms => ms.length

/-- The enumeration loop (source lines 139–156): for each resource with
`resourceMethods`, for each method key, call `getMethod` and record
whether a `methodIntegration` is configured.  `getMethod` abstracts the
remote `getMethod` response keyed by resource id and HTTP method. -/
def enumerate (resources : List ResourceNode)
    (getMethod : String → String → Bool) : List IntegrationRef :=
  match resources with
  | [] => []
  | r :: rest =>
    (match r.resourceMethods with
      | none => []
      | some ms => ms.map fun m => ⟨r.id, m, getMethod r.id m⟩) ++
    enumerate rest getMethod

/-- C5: enumeration yields exactly one `IntegrationRef` per declared
(resource, method) pair — `∑ methodCount` in total — with
`hasIntegration` exactly as reported by the method detail, and an empty
tree yields the empty sequence. -/
theorem enumerate_complete (resources : List ResourceNode)
    (getMethod : String → String → Bool) :
    (enumerate resources getMethod).length =
      (resources.map methodCount).sum ∧
    (∀ ref ∈ enumerate resources getMethod,
      ref.hasIntegration = getMethod ref.resourceId ref.httpMethod) ∧
    (resources = [] → enumerate resources getMethod = []) := by
  refine ⟨?_, ?_, ?_⟩
  · induction resources with
    | nil => rfl
    | cons r rest ih =>
      simp only [enumerate, List.length_append, List.map_cons, List.sum_cons, ih]
      cases h : r.resourceMethods with
      | none => simp [methodCount, h]
      | some ms => simp [methodCount, h]
  · induction resources with
    | nil => intro ref h; cases h
    | cons r rest ih =>
      intro ref href
      simp only [enumerate, List.mem_append] at href
      rcases href with h | h
      · cases hm : r.resourceMethods with
        | none => rw [hm] at h; cases h
        | some ms =>
          rw [hm] at h
          simp only [List.mem_map] at h
          obtain ⟨m, _, rfl⟩ := h
          rfl
      · exact ih ref h
  · intro h
    rw [h]
    rfl

/-- C5 witness: on a concrete three-resource tree the count is the sum of
the per-resource method counts, a concrete emitted ref carries the flag
its method detail reports, and the empty tree enumerates to `[]`. -/
theorem enumerate_complete_witness :
    (enumerate
      [⟨"r1", "/a", some ["GET", "POST"]⟩, ⟨"r2", "/b", none⟩,
        ⟨"r3", "/c", some ["DELETE"]⟩]
      (fun rid m => rid = "r1" && m = "GET")).length = 3 ∧
    (⟨"r1", "GET", true⟩ : IntegrationRef).hasIntegration =
      (fun rid m => rid = "r1" && m = "GET") "r1" "GET" ∧
    enumerate [] (fun rid m => rid = "r1" && m = "GET") = [] :=
  ⟨(enumerate_complete
      [⟨"r1", "/a", some ["GET", "POST"]⟩, ⟨"r2", "/b", none⟩,
        ⟨"r3", "/c", some ["DELETE"]⟩]
      (fun rid m => rid = "r1" && m = "GET")).1,
   (enumerate_complete
      [⟨"r1", "/a", some ["GET", "POST"]⟩, ⟨"r2", "/b", none⟩,
        ⟨"r3", "/c", some ["DELETE"]⟩]
      (fun rid m => rid = "r1" && m = "GET")).2.1
      ⟨"r1", "GET", true⟩ (by decide),
   (enumerate_complete [] (fun rid m => rid = "r1" && m = "GET")).2.2 rfl⟩

/-! ## Patch error classification -/

/-- The literal of the code's `includes('between 50 ms and')` check. -/
def quotaNeedle : List Char := "between 50 ms and".data

/-- The literal before the digit group in the quota regex
`/between 50 ms and (\d+) ms/`. -/
def quotaPrefix : List Char := "between 50 ms and ".data

/-- The literal after the digit group in the quota regex. -/
def quotaSuffix : List Char := " ms".data

/-- `parseInt(ds, 10)` on a digit string. -/
def digitsToNat (ds : List Char) : Nat :=
  ds.foldl (fun a c => a * 10 + (c.toNat - 48)) 0

/-- Strip an expected literal from the front of a string. -/
def dropLiteral : List Char → List Char → Option (List Char)
  | [], l => some l
  | _ :: _, [] => none
  | p :: ps, c :: cs => if c = p then dropLiteral ps cs else none

/-- Split off the maximal leading digit run. -/
def takeDigits : List Char → List Char × List Char
  | [] => ([], [])
  | c :: cs =>
    if c.isDigit then ((c :: (takeDigits cs).1), (takeDigits cs).2)
    else ([], c :: cs)

/-- The quota regex anchored at the start of `l`: the literal prefix,
then a nonempty greedy digit group, then `" ms"`.  (The greedy group can
only be the maximal digit run: any shorter split puts a digit where the
`" "` of `" ms"` must be.) -/
def matchQuotaAt (l : List Char) : Option Nat :=
  match dropLiteral quotaPrefix l with
  | none => none
  | some rest =>
    if !(takeDigits rest).1.isEmpty &&
        quotaSuffix.isPrefixOf (takeDigits rest).2 then
      some (digitsToNat (takeDigits rest).1)
    else none

/-- First-match scan of the quota regex over the message: the model of
`message.match(/between 50 ms and (\d+) ms/)` with `parseInt` applied to
the capture group. -/
def findQuotaMax : List Char → Option Nat
  | [] => none
  | c :: cs =>
    match matchQuotaAt (c :: cs) with
    | some n => some n
    | none => findQuotaMax cs

/-- How a rejected `updateIntegration` call is surfaced. -/
inductive PatchFailure where
  | quotaExceeded (accountMax : Nat)
  | other (message : String)
  deriving Repr, DecidableEq

/-- The rejection handler (source lines 180–191): when the message is
truthy, contains `"between 50 ms and"`, and the quota regex captures a
ceiling `N`, the run fails with the quota error carrying `N`; otherwise
the original error is rethrown unchanged. -/
def classifyPatchError (msg : String) : PatchFailure :=
  if !msg.data.isEmpty && hasSubstr quotaNeedle msg.data then
    match findQuotaMax msg.data with
    | some n => .quotaExceeded n
    | none => .other msg
  else .other msg

/-- A message with an occurrence of the quota pattern
`"between 50 ms and <digits> ms"`. -/
def QuotaMsg (l : List Char) : Prop :=
  ∃ pre ds post, l = pre ++ quotaPrefix ++ ds ++ quotaSuffix ++ post ∧
    ds ≠ [] ∧ ∀ c ∈ ds, c.isDigit = true

theorem dropLiteral_eq_some (p : List Char) :
    ∀ l r, dropLiteral p l = some r ↔ l = p ++ r := by
  induction p with
  | nil =>
    intro l r
    simp [dropLiteral]
  | cons p ps ih =>
    intro l r
    cases l with
    | nil => simp [dropLiteral]
    | cons c cs =>
      simp only [dropLiteral, List.cons_append, List.cons.injEq]
      by_cases h : c = p
      · subst h
        simp [ih]
      · simp [h]

theorem isPrefixOf_eq_true_iff (p l : List Char) :
    p.isPrefixOf l = true ↔ ∃ t, l = p ++ t := by
  rw [ List.isPrefixOf_iff_prefix]
  constructor
  · rintro ⟨t, ht⟩
    exact ⟨t, ht.symm⟩
  · rintro ⟨t, ht⟩
    exact ⟨t, ht.symm⟩

theorem takeDigits_eq (l : List Char) :
    l = (takeDigits l).1 ++ (takeDigits l).2 ∧
    ∀ c ∈ (takeDigits l).1, c.isDigit = true := by
  induction l with
  | nil => exact ⟨rfl, by intro c h; cases h⟩
  | cons c cs ih =>
    by_cases h : c.isDigit
    · refine ⟨?_, ?_⟩
      · simp only [takeDigits, h, if_true, List.cons_append]
        exact congrArg (c :: ·) ih.1
      · intro d hd
        simp only [takeDigits, h, if_true, List.mem_cons] at hd
        rcases hd with rfl | hd
        · exact h
        · exact ih.2 d hd
    · have hb : c.isDigit = false := by
        cases hc : c.isDigit with
        | false => rfl
        | true => exact absurd hc h
      refine ⟨?_, ?_⟩
      · simp [takeDigits, hb]
      · intro d hd
        simp [takeDigits, hb] at hd

theorem takeDigits_append (ds rest : List Char)
    (hds : ∀ c ∈ ds, c.isDigit = true)
    (hrest : ∀ c cs, rest = c :: cs → c.isDigit = false) :
    takeDigits (ds ++ rest) = (ds, rest) := by
  induction ds with
  | nil =>
    cases h : rest with
    | nil => rfl
    | cons c cs => simp [takeDigits, hrest c cs h]
  | cons d ds' ih =>
    have hd : d.isDigit = true := hds d (by simp)
    simp only [List.cons_append, takeDigits, hd, if_true]
    simp only [List.append_eq]
    rw [ih (fun c hc => hds c (by simp [hc]))]

theorem matchQuotaAt_sound (l : List Char) (n : Nat)
    (h : matchQuotaAt l = some n) :
    ∃ ds post, l = quotaPrefix ++ ds ++ quotaSuffix ++ post ∧ ds ≠ [] ∧
      (∀ c ∈ ds, c.isDigit = true) ∧ digitsToNat ds = n := by
  unfold matchQuotaAt at h
  cases hd : dropLiteral quotaPrefix l with
  | none => rw [hd] at h; cases h
  | some rest =>
    rw [hd] at h
    simp only at h
    split_ifs at h with hc
    · rw [Bool.and_eq_true] at hc
      obtain ⟨h1, h2⟩ := hc
      have hne : (takeDigits rest).1 ≠ [] := by
        intro he
        rw [he] at h1
        simp at h1
      rw [isPrefixOf_eq_true_iff] at h2
      obtain ⟨post, hpost⟩ := h2
      refine ⟨(takeDigits rest).1, post, ?_, hne, (takeDigits_eq rest).2, ?_⟩
      · have hl : l = quotaPrefix ++ rest := (dropLiteral_eq_some _ _ _).1 hd
        have hassoc :
            quotaPrefix ++ (takeDigits rest).1 ++ quotaSuffix ++ post =
            quotaPrefix ++ ((takeDigits rest).1 ++ (quotaSuffix ++ post)) := by
          simp [List.append_assoc]
        rw [hassoc, ← hpost, ← (takeDigits_eq rest).1]
        exact hl
      · injection h with h'

theorem matchQuotaAt_complete (ds post : List Char) (hne : ds ≠ [])
    (hdig : ∀ c ∈ ds, c.isDigit = true) :
    matchQuotaAt (quotaPrefix ++ ds ++ quotaSuffix ++ post) =
      some (digitsToNat ds) := by
  have hrest : ∀ c cs, quotaSuffix ++ post = c :: cs → c.isDigit = false := by
    intro c cs h
    rw [show quotaSuffix ++ post = ' ' :: (['m', 's'] ++ post) from rfl] at h
    injection h with h1 _
    rw [← h1]
    decide
  have ht : takeDigits (ds ++ (quotaSuffix ++ post)) = (ds, quotaSuffix ++ post) :=
    takeDigits_append ds (quotaSuffix ++ post) hdig hrest
  have hd : dropLiteral quotaPrefix
      (quotaPrefix ++ (ds ++ (quotaSuffix ++ post))) =
      some (ds ++ (quotaSuffix ++ post)) :=
    (dropLiteral_eq_some _ _ _).2 rfl
  have hne' : ds.isEmpty = false := by
    cases ds with
    | nil => exact absurd rfl hne
    | cons _ _ => rfl
  have hpre : quotaSuffix.isPrefixOf (quotaSuffix ++ post) = true := by
    rw [isPrefixOf_eq_true_iff]
    exact ⟨post, rfl⟩
  have hassoc : quotaPrefix ++ ds ++ quotaSuffix ++ post =
      quotaPrefix ++ (ds ++ (quotaSuffix ++ post)) := by
    simp [List.append_assoc]
  rw [hassoc]
  unfold matchQuotaAt
  rw [hd]
  simp [ht, hne', hpre]

theorem findQuotaMax_of_matchQuotaAt (l : List Char) (n : Nat)
    (h : matchQuotaAt l = some n) : findQuotaMax l = some n := by
  cases l with
  | nil =>
    have : matchQuotaAt ([] : List Char) = none := rfl
    rw [this] at h
    cases h
  | cons c cs =>
    unfold findQuotaMax
    rw [h]

theorem findQuotaMax_complete :
    ∀ (pre : List Char) (l ds post : List Char),
      l = pre ++ quotaPrefix ++ ds ++ quotaSuffix ++ post → ds ≠ [] →
      (∀ c ∈ ds, c.isDigit = true) → ∃ n, findQuotaMax l = some n := by
  intro pre
  induction pre with
  | nil =>
    intro l ds post h hne hdig
    refine ⟨digitsToNat ds, ?_⟩
    apply findQuotaMax_of_matchQuotaAt
    rw [h, List.nil_append]
    exact matchQuotaAt_complete ds post hne hdig
  | cons c pre' ih =>
    intro l ds post h hne hdig
    subst h
    rw [show (c :: pre') ++ quotaPrefix ++ ds ++ quotaSuffix ++ post =
      c :: (pre' ++ quotaPrefix ++ ds ++ quotaSuffix ++ post) by simp] at *
    cases hm : matchQuotaAt
        (c :: (pre' ++ quotaPrefix ++ ds ++ quotaSuffix ++ post)) with
    | some n =>
      exact ⟨n, by unfold findQuotaMax; rw [hm]⟩
    | none =>
      obtain ⟨n, hn⟩ := ih (pre' ++ quotaPrefix ++ ds ++ quotaSuffix ++ post)
        ds post rfl hne hdig
      exact ⟨n, by unfold findQuotaMax; rw [hm]; exact hn⟩

theorem findQuotaMax_sound :
    ∀ (l : List Char) (n : Nat), findQuotaMax l = some n →
      ∃ pre ds post, l = pre ++ quotaPrefix ++ ds ++ quotaSuffix ++ post ∧
        ds ≠ [] ∧ (∀ c ∈ ds, c.isDigit = true) ∧ digitsToNat ds = n := by
  intro l
  induction l with
  | nil => intro n h; cases h
  | cons c cs ih =>
    intro n h
    unfold findQuotaMax at h
    cases hm : matchQuotaAt (c :: cs) with
    | some m =>
      rw [hm] at h
      injection h with h'
      obtain ⟨ds, post, hl, hne, hdig, hval⟩ := matchQuotaAt_sound _ _ hm
      exact ⟨[], ds, post, by rw [List.nil_append]; exact hl, hne, hdig,
        by rw [hval, h']⟩
    | none =>
      rw [hm] at h
      obtain ⟨pre, ds, post, hl, hne, hdig, hval⟩ := ih n h
      exact ⟨c :: pre, ds, post, by rw [hl]; rfl, hne, hdig, hval⟩

theorem hasSubstr_of_decomp (pat : List Char) :
    ∀ pre post, hasSubstr pat (pre ++ pat ++ post) = true := by
  intro pre
  induction pre with
  | nil =>
    intro post
    cases hp : pat with
    | nil =>
      cases post with
      | nil => rfl
      | cons c cs => simp [hasSubstr]
    | cons p ps =>
      have hpre : (p :: ps).isPrefixOf (p :: (ps ++ post)) = true := by
        rw [isPrefixOf_eq_true_iff]
        exact ⟨post, by simp⟩
      rw [List.nil_append,
        show (p :: ps) ++ post = p :: (ps ++ post) from rfl]
      unfold hasSubstr
      rw [hpre]
      rfl
  | cons c cs ih =>
    intro post
    rw [show (c :: cs) ++ pat ++ post = c :: (cs ++ pat ++ post) by simp]
    unfold hasSubstr
    rw [ih post, Bool.or_true]

theorem quotaMsg_check (l : List Char) (h : QuotaMsg l) :
    (!l.isEmpty && hasSubstr quotaNeedle l) = true := by
  obtain ⟨pre, ds, post, hl, _, _⟩ := h
  have hl2 : l = pre ++ quotaNeedle ++ (' ' :: (ds ++ (quotaSuffix ++ post))) := by
    rw [hl, show quotaPrefix = quotaNeedle ++ [' '] from rfl]
    simp [List.append_assoc]
  rw [Bool.and_eq_true]
  constructor
  · rw [hl2]
    cases pre with
    | nil => rfl
    | cons _ _ => rfl
  · rw [hl2]
    exact hasSubstr_of_decomp quotaNeedle pre (' ' :: (ds ++ (quotaSuffix ++ post)))

/-- C6: a rejection whose message embeds the pattern
`"between 50 ms and <N> ms"` (N a nonempty digit string) is classified as
quota-exceeded — with `accountMax = N` whenever the pattern determines a
single value — and any other rejection is re-raised with its original
message; a message ending `"between 50 ms and 60000 ms"` yields 60000. -/
theorem classify_patch_rejection (msg : String) :
    (QuotaMsg msg.data → ∃ n, classifyPatchError msg = .quotaExceeded n) ∧
    (¬ QuotaMsg msg.data → classifyPatchError msg = .other msg) ∧
    (∀ pre ds post,
      msg.data = pre ++ quotaPrefix ++ ds ++ quotaSuffix ++ post →
      ds ≠ [] → (∀ c ∈ ds, c.isDigit = true) →
      (∀ pre2 ds2 post2,
        msg.data = pre2 ++ quotaPrefix ++ ds2 ++ quotaSuffix ++ post2 →
        ds2 ≠ [] → (∀ c ∈ ds2, c.isDigit = true) →
        digitsToNat ds2 = digitsToNat ds) →
      classifyPatchError msg = .quotaExceeded (digitsToNat ds)) ∧
    classifyPatchError ("Timeout should be between 50 ms and 60000 ms") =
      .quotaExceeded 60000 := by
  refine ⟨?_, ?_, ?_, ?_⟩
  · intro h
    have hchk := quotaMsg_check _ h
    obtain ⟨pre, ds, post, hl, hne, hdig⟩ := h
    obtain ⟨n, hn⟩ := findQuotaMax_complete pre msg.data ds post hl hne hdig
    refine ⟨n, ?_⟩
    unfold classifyPatchError
    rw [if_pos hchk, hn]
  · intro h
    cases hchk : (!msg.data.isEmpty && hasSubstr quotaNeedle msg.data) with
    | false =>
      unfold classifyPatchError
      rw [if_neg (by simp [hchk])]
    | true =>
      cases hf : findQuotaMax msg.data with
      | none =>
        unfold classifyPatchError
        rw [if_pos hchk, hf]
      | some n =>
        obtain ⟨pre, ds, post, hl, hne, hdig, _⟩ := findQuotaMax_sound _ _ hf
        exact absurd ⟨pre, ds, post, hl, hne, hdig⟩ h
  · intro pre ds post hl hne hdig huniq
    have hchk := quotaMsg_check _ ⟨pre, ds, post, hl, hne, hdig⟩
    obtain ⟨n, hn⟩ := findQuotaMax_complete pre msg.data ds post hl hne hdig
    obtain ⟨pre2, ds2, post2, hl2, hne2, hdig2, hval⟩ :=
      findQuotaMax_sound _ _ hn
    have hsame : digitsToNat ds2 = digitsToNat ds :=
      huniq pre2 ds2 post2 hl2 hne2 hdig2
    unfold classifyPatchError
    rw [if_pos hchk, hn, ← hval, hsame]
  · decide

/-- C6 witness: a concrete quota-rejection message is classified as
quota-exceeded, and a concrete unrelated message is re-raised as-is. -/
theorem classify_patch_rejection_witness :
    (∃ n, classifyPatchError ("Timeout should be between 50 ms and 60000 ms") =
      .quotaExceeded n) ∧
    classifyPatchError ("Access denied") = .other ("Access denied") := by
  constructor
  · exact (classify_patch_rejection _).1
      ⟨"Timeout should be ".data, "60000".data, [], by decide, by decide,
        by decide⟩
  · apply (classify_patch_rejection _).2.1
    intro h
    have hchk := quotaMsg_check _ h
    rw [Bool.and_eq_true] at hchk
    have hfalse : hasSubstr quotaNeedle ("Access denied".data) = false := by
      decide
    rw [hfalse] at hchk
    exact absurd hchk.2 (by decide)

/-! ## Patch loop and deployment -/

/-- Result of a run that got past enumeration: how many integrations were
patched and whether a redeploy was issued. -/
structure ReconciliationResult where
  appliedCount : Nat
  deploymentTriggered : Bool
  deriving Repr, DecidableEq

/-- The patch loop (source lines 139–195).  `patchErr` is the remote
`updateIntegration` oracle: `none` is success, `some msg` a rejection.
Refs without a configured integration are skipped with no patch call;
a successful patch increments the applied work; a rejection is classified
and thrown, ending the loop at once.  Returns the refs on which a patch
was attempted, the refs successfully patched, and the first fatal
failure when one occurred. -/
def runPatches (patchErr : String → String → Option String) :
    List IntegrationRef →
      List IntegrationRef × List IntegrationRef × Option PatchFailure
  | [] => ([], [], none)
  | ref :: rest =>
    if ref.hasIntegration then
      match patchErr ref.resourceId ref.httpMethod with
      | none =>
        (ref :: (runPatches patchErr rest).1,
          ref :: (runPatches patchErr rest).2.1,
          (runPatches patchErr rest).2.2)
      | some msg => ([ref], [], some (classifyPatchError msg))
    else runPatches patchErr rest

/-- The tail of the run after enumeration (source lines 139–216): run the
patch loop; on a failure propagate it; on success return early with zero
effect when `updateCount === 0`, else call `createDeployment`.  Returns
the remote calls of this phase and the outcome. -/
def patchAndDeploy (patchErr : String → String → Option String)
    (refs : List IntegrationRef) :
    List RemoteCall × Except PatchFailure ReconciliationResult :=
  match runPatches patchErr refs with
  | (attempted, applied, none) =>
    if applied.length = 0 then
      (attempted.map fun _ => .updateIntegration, .ok ⟨0, false⟩)
    else
      ((attempted.map fun _ => .updateIntegration) ++ [.createDeployment],
        .ok ⟨applied.length, true⟩)
  | (attempted, _, some f) =>
    (attempted.map fun _ => .updateIntegration, .error f)

/-- C7: when the patch loop finishes with no fatal error,
`createDeployment` is called iff at least one integration was patched;
with zero patches the run completes as a zero-effect no-op, and with
`n > 0` patches it completes with `deploymentTriggered`. -/
theorem createDeployment_iff_applied
    (patchErr : String → String → Option String)
    (refs : List IntegrationRef)
    (h : (runPatches patchErr refs).2.2 = none) :
    (RemoteCall.createDeployment ∈ (patchAndDeploy patchErr refs).1 ↔
      0 < (runPatches patchErr refs).2.1.length) ∧
    ((runPatches patchErr refs).2.1.length = 0 →
      (patchAndDeploy patchErr refs).2 = .ok ⟨0, false⟩) ∧
    (0 < (runPatches patchErr refs).2.1.length →
      (patchAndDeploy patchErr refs).2 =
        .ok ⟨(runPatches patchErr refs).2.1.length, true⟩) := by
  rcases hrp : runPatches patchErr refs with ⟨att, ap, f⟩
  rw [hrp] at h
  simp only at h
  subst h
  unfold patchAndDeploy
  rw [hrp]
  simp only
  by_cases ha : ap.length = 0
  · rw [if_pos ha]
    refine ⟨?_, fun _ => rfl, ?_⟩
    · simp [List.mem_map, ha]
    · intro hlt
      omega
  · rw [if_neg ha]
    refine ⟨?_, fun h0 => absurd h0 ha, fun _ => rfl⟩
    simp [List.mem_map]
    omega

/-- C7 witness: one patchable integration with a succeeding patch oracle
triggers the deployment; the applied count is 1. -/
theorem createDeployment_iff_applied_witness :
    (RemoteCall.createDeployment ∈
      (patchAndDeploy (fun _ _ => none) [⟨"r1", "GET", true⟩]).1 ↔
      0 < (runPatches (fun _ _ => none) [⟨"r1", "GET", true⟩]).2.1.length) ∧
    ((runPatches (fun _ _ => none) [⟨"r1", "GET", true⟩]).2.1.length = 0 →
      (patchAndDeploy (fun _ _ => none) [⟨"r1", "GET", true⟩]).2 =
        .ok ⟨0, false⟩) ∧
    (0 < (runPatches (fun _ _ => none) [⟨"r1", "GET", true⟩]).2.1.length →
      (patchAndDeploy (fun _ _ => none) [⟨"r1", "GET", true⟩]).2 =
        .ok ⟨(runPatches (fun _ _ => none) [⟨"r1", "GET", true⟩]).2.1.length,
          true⟩) :=
  createDeployment_iff_applied (fun _ _ => none) [⟨"r1", "GET", true⟩]
    (by decide)

/-- C8: the first failing patch aborts the loop: when every earlier
patchable ref succeeds and `bad` is rejected, exactly the earlier
patchable refs and `bad` were attempted — nothing after `bad` — the run
carries the classified failure, and the earlier applied patches remain
recorded as applied (no rollback). -/
theorem first_failure_aborts
    (patchErr : String → String → Option String)
    (pre post : List IntegrationRef) (bad : IntegrationRef) (msg : String)
    (hpre : ∀ r ∈ pre, r.hasIntegration = true →
      patchErr r.resourceId r.httpMethod = none)
    (hbad : bad.hasIntegration = true)
    (herr : patchErr bad.resourceId bad.httpMethod = some msg) :
    runPatches patchErr (pre ++ bad :: post) =
      (pre.filter (fun r => r.hasIntegration) ++ [bad],
        pre.filter (fun r => r.hasIntegration),
        some (classifyPatchError msg)) := by
  induction pre with
  | nil =>
    simp only [List.nil_append, List.filter_nil]
    unfold runPatches
    simp [hbad, herr]
  | cons r pre' ih =>
    have ih' := ih (fun x hx hint => hpre x (by simp [hx]) hint)
    by_cases hri : r.hasIntegration = true
    · have hnone := hpre r (by simp) hri
      simp only [List.cons_append]
      unfold runPatches
      simp [hri, hnone, ih', List.filter_cons, hri]
    · have hrf : r.hasIntegration = false := by
        cases hc : r.hasIntegration with
        | false => rfl
        | true => exact absurd hc hri
      simp only [List.cons_append]
      unfold runPatches
      simp [hrf, ih', List.filter_cons]

/-- C8 witness: with two earlier refs (one patchable and applied, one
skipped), a failing third ref and a fourth ref after it, the loop stops
at the third: the fourth is never attempted and the first stays applied. -/
theorem first_failure_aborts_witness :
    runPatches
      (fun rid _ => if rid = "r3" then some ("boom") else none)
      ([⟨"r1", "GET", true⟩, ⟨"r2", "POST", false⟩] ++
        ⟨"r3", "PUT", true⟩ :: [⟨"r4", "DELETE", true⟩]) =
      ([⟨"r1", "GET", true⟩, ⟨"r2", "POST", false⟩].filter
          (fun r => r.hasIntegration) ++ [⟨"r3", "PUT", true⟩],
        [⟨"r1", "GET", true⟩, ⟨"r2", "POST", false⟩].filter
          (fun r => r.hasIntegration),
        some (classifyPatchError ("boom"))) :=
  first_failure_aborts
    (fun rid _ => if rid = "r3" then some ("boom") else none)
    [⟨"r1", "GET", true⟩, ⟨"r2", "POST", false⟩] [⟨"r4", "DELETE", true⟩]
    ⟨"r3", "PUT", true⟩ "boom"
    (by decide) rfl (by decide)

end APIGatewayTimeout
